import Mathlib

/-!
Verification of the maven-publish action's artifact-set discovery, deploy-command
assembly, idempotency probe and run-level error handling, as a shallow embedding
of the action's script.  JavaScript strings are modelled as lists of characters.
-/

namespace MavenPublish

/-- JavaScript strings (UTF-16 sequences; here Unicode scalar lists). -/
abbrev JStr := List Char

/-! ## Node `path.parse` (name/ext split at the last dot of a base name) -/

/-- Split a base name at its last dot: `some (stem, ext)` where `ext` starts with
the dot, or `none` when the name has no dot.  Mirrors the scan Node's
`path.parse` performs on a file name. -/
def splitLastDot : JStr → Option (JStr × JStr)
  | [] => none
  | c :: cs =>
    match splitLastDot cs with
    | some (st, ex) => some (c :: st, ex)
    | none => if c = '.' then some ([], '.' :: cs) else none

/-- The `(name, ext)` pair of `path.parse` for a plain file name: `ext` is the
suffix from the last dot, except that a dot in the first position marks a
hidden file with no extension. -/
def parseName (b : JStr) : JStr × JStr :=
  match splitLastDot b with
  | some ([], _) => (b, [])
  | some (st, ex) => (st, ex)
  | none => (b, [])

/-! ## Sibling classification (the per-file branch of the deploy loop) -/

/-- The outcome of the classification branch for one sibling file. -/
inductive SiblingClass where
  /-- Skipped by the first guard: stem not starting with the base name, an
  ignored extension, or no extension at all. -/
  | ignored
  /-- Skipped because the classifier is non-empty but does not start with the
  `-` separator: a different family sharing a prefix. -/
  | notFamily
  /-- Skipped by the `type == 'jar' && classifier == ''` guard for the main
  artifact. -/
  | mainSkip
  /-- Recorded as an extra artifact with the given type and classifier. -/
  | extra (type classifier : JStr)
deriving DecidableEq, Repr

/-- `const ignoredExts = ['.pom', '.md5', '.sha1', '.sha256', '.sha512']` -/
def ignoredExts : List JStr :=
  [".pom".toList, ".md5".toList, ".sha1".toList, ".sha256".toList, ".sha512".toList]

/-- One iteration of the sibling loop, following the source's guards in order. -/
def classify (basename fileName : JStr) : SiblingClass :=
  let parsed := parseName fileName
  if !(basename.isPrefixOf parsed.1) || ignoredExts.contains parsed.2
      || parsed.2 == ([] : JStr) then
    .ignored
  else
    let type := parsed.2.drop 1
    let classifier0 := parsed.1.drop basename.length
    if decide (0 < classifier0.length) && !(['-'].isPrefixOf classifier0) then
      .notFamily
    else
      let classifier := if 0 < classifier0.length then classifier0.drop 1 else classifier0
      if type == "jar".toList && classifier == ([] : JStr) then
        .mainSkip
      else
        .extra type classifier

/-- The three parallel arrays `extraFiles`, `extraTypes`, `extraClassifiers`. -/
structure Extras where
  files : List JStr
  types : List JStr
  classifiers : List JStr
deriving DecidableEq, Repr

/-- The sibling loop: pushes path, type and classifier for every file the
classification records as an extra artifact. -/
def processSiblings (basename : JStr) : List JStr → Extras
  | [] => ⟨[], [], []⟩
  | f :: fs =>
    let rest := processSiblings basename fs
    match classify basename f with
    | .extra t c => ⟨f :: rest.files, t :: rest.types, c :: rest.classifiers⟩
    | _ => rest

/-- The triple contributed by one sibling, when it is classified as extra. -/
def classifyExtraOpt (basename f : JStr) : Option (JStr × JStr × JStr) :=
  match classify basename f with
  | .extra t c => some (f, t, c)
  | _ => none

/-- All extra-artifact triples of a sibling list, in traversal order. -/
def extraTriples (basename : JStr) (sibs : List JStr) : List (JStr × JStr × JStr) :=
  sibs.filterMap (classifyExtraOpt basename)

/-! ## Deploy command assembly -/

/-- The arguments every deploy invocation receives (the `cmd` literal). -/
def baseCmd (mavenSettings remoteUrl pomFile mainArtifactPath : JStr) : List JStr :=
  [ "--batch-mode".toList,
    "--color".toList, "always".toList,
    "-Dorg.slf4j.simpleLogger.showDateTime=true".toList,
    "-Dorg.slf4j.simpleLogger.dateTimeFormat=HH:mm:ss,SSS".toList,
    "--settings".toList, mavenSettings,
    "org.apache.maven.plugins:maven-deploy-plugin:deploy-file".toList,
    "-Daether.checksums.algorithms=MD5,SHA-1,SHA-256,SHA-512".toList,
    "-DretryFailedDeploymentCount=3".toList,
    "-Durl=".toList ++ remoteUrl,
    "-DpomFile=".toList ++ pomFile,
    "-Dfile=".toList ++ mainArtifactPath ]

/-- `xs.join(',')` -/
def joinComma (xs : List JStr) : JStr := List.intercalate ",".toList xs

/-- The full command line: the base arguments, plus the three comma-joined
list arguments when at least one extra artifact was found. -/
def buildCmd (mavenSettings remoteUrl pomFile mainArtifactPath : JStr)
    (ex : Extras) : List JStr :=
  if 0 < ex.files.length then
    baseCmd mavenSettings remoteUrl pomFile mainArtifactPath ++
      [ "-Dfiles=".toList ++ joinComma ex.files,
        "-Dtypes=".toList ++ joinComma ex.types,
        "-Dclassifiers=".toList ++ joinComma ex.classifiers ]
  else
    baseCmd mavenSettings remoteUrl pomFile mainArtifactPath

/-! ## Idempotency probe (`artifactExists`) -/

/-- `groupId.replace(/\./g, '/')`: every dot becomes a slash. -/
def replaceDots (groupId : JStr) : JStr :=
  groupId.map fun ch => if ch = '.' then '/' else ch

/-- The standard-layout artifact path checked by the probe. -/
def artifactPath (groupId artifactId version : JStr) : JStr :=
  replaceDots groupId ++ "/".toList ++ artifactId ++ "/".toList ++ version
    ++ "/".toList ++ artifactId ++ "-".toList ++ version ++ ".jar".toList

/-- The URL the probe requests: `repositoryUrl + '/' + artifactPath`. -/
def checkUrl (repositoryUrl groupId artifactId version : JStr) : JStr :=
  repositoryUrl ++ "/".toList ++ artifactPath groupId artifactId version

/-- UTF-8 encoding of one Unicode scalar (what `Buffer.from` does per char). -/
def utf8Bytes (c : Char) : List Nat :=
  let n := c.toNat
  if n < 128 then [n]
  else if n < 2048 then [192 + n / 64, 128 + n % 64]
  else if n < 65536 then [224 + n / 4096, 128 + n / 64 % 64, 128 + n % 64]
  else [240 + n / 262144, 128 + n / 4096 % 64, 128 + n / 64 % 64, 128 + n % 64]

/-- UTF-8 encoding of a string. -/
def utf8Encode (s : JStr) : List Nat := s.flatMap utf8Bytes

/-- The base64 digit alphabet. -/
def b64Char (n : Nat) : Char :=
  ("ABCDEFGHIJKLMNOPQRSTUVWXYZabcdefghijklmnopqrstuvwxyz0123456789+/".toList).getD n 'A'

/-- Standard base64 with `=` padding, as produced by `buf.toString('base64')`. -/
def base64Encode : List Nat → JStr
  | [] => []
  | [a] => [b64Char (a / 4), b64Char (a % 4 * 16), '=', '=']
  | [a, b] => [b64Char (a / 4), b64Char (a % 4 * 16 + b / 16), b64Char (b % 16 * 4), '=']
  | a :: b :: c :: rest =>
    [b64Char (a / 4), b64Char (a % 4 * 16 + b / 16),
     b64Char (b % 16 * 4 + c / 64), b64Char (c % 64)] ++ base64Encode rest

/-- The `Authorization` header value sent by the probe. -/
def basicAuthHeader (username password : JStr) : JStr :=
  "Basic ".toList ++ base64Encode (utf8Encode (username ++ ":".toList ++ password))

/-- An HTTP GET request: its URL and its `Authorization` header. -/
structure HttpGet where
  url : JStr
  authHeader : JStr
deriving DecidableEq, Repr

/-- The requests issued by one probe call: the single authenticated GET. -/
def probeRequests (groupId artifactId version repositoryUrl username password : JStr) :
    List HttpGet :=
  [⟨checkUrl repositoryUrl groupId artifactId version, basicAuthHeader username password⟩]

/-- How the `axios.get` promise settles (default config: 2xx resolves, any
other status rejects with the response attached, transport failures reject
without a response). -/
inductive AxiosOutcome where
  /-- The promise resolved with the given status (a 2xx status by default). -/
  | resolved (status : Nat)
  /-- The promise rejected with an error carrying a response status. -/
  | rejectedWithStatus (status : Nat)
  /-- The promise rejected with no response (connection failure). -/
  | rejectedNoResponse (message : JStr)
deriving DecidableEq, Repr

/-- What one probe call reports: its boolean answer and whether it emitted a
`core.warning`. -/
structure ProbeResult where
  found : Bool
  warned : Bool
deriving DecidableEq, Repr

/-- The result-interpretation logic of `artifactExists`: `true` only on an
exact 200 status; a 404 rejection is a quiet `false`; every other rejection
is a warned `false`; the fall-through for a non-200 resolution is a quiet
`false`.  Total: no outcome re-raises. -/
def artifactExists : AxiosOutcome → ProbeResult
  | .resolved s => if s == 200 then ⟨true, false⟩ else ⟨false, false⟩
  | .rejectedWithStatus s => if s == 404 then ⟨false, false⟩ else ⟨false, true⟩
  | .rejectedNoResponse _ => ⟨false, true⟩

/-! ## The per-family deploy loop and the run -/

/-- Maven coordinates extracted from a descriptor by the three regex matches. -/
structure Coords where
  groupId : JStr
  artifactId : JStr
  version : JStr
deriving DecidableEq, Repr

/-- The environment one loop iteration observes: the descriptor's location and
base name, the folder listing, and the outcomes of the external effects (the
deploy-tool run, the coordinate extraction, the probe's answer). -/
structure FamilyEnv where
  pomFile : JStr
  folder : JStr
  basename : JStr
  siblings : List JStr
  execOk : Bool
  execStdout : JStr
  execStderr : JStr
  pomCoords : Option Coords
  probeFinds : Bool
deriving DecidableEq, Repr

/-- `str.includes(needle)` -/
def containsSub : JStr → JStr → Bool
  | hay, needle =>
    if needle.isPrefixOf hay then true
    else
      match hay with
      | [] => false
      | _ :: t => containsSub t needle

/-- The rejection signature searched for in the captured output. -/
def rejectionSig : JStr := "status: 400 Bad Request".toList

/-- Whether the captured output matches the 400-rejection signature. -/
def sig400 (e : FamilyEnv) : Bool :=
  containsSub e.execStderr rejectionSig || containsSub e.execStdout rejectionSig

/-- `path.join(folder, basename + '.jar')` -/
def mainArtifact (e : FamilyEnv) : JStr :=
  e.folder ++ "/".toList ++ e.basename ++ ".jar".toList

/-- `fs.existsSync(mainArtifact)`: the folder listing contains the name. -/
def mainExists (e : FamilyEnv) : Bool :=
  e.siblings.contains (e.basename ++ ".jar".toList)

/-- How one family's processing ended. -/
inductive FamilyOutcome where
  /-- Main binary absent: warn and `continue`. -/
  | skippedMissingMain
  /-- The deploy-tool invocation succeeded. -/
  | deployed
  /-- Invocation failed with the 400 signature and the probe confirmed the
  artifact exists: warn and continue. -/
  | warnedExists
  /-- Invocation failed with the 400 signature but existence was not
  confirmed: the catch block falls through and the loop continues. -/
  | swallowed
  /-- Invocation failed without the 400 signature: the error is re-thrown and
  the run aborts. -/
  | aborted
deriving DecidableEq, Repr

/-- The catch block of the deploy invocation. -/
def handleFailure (e : FamilyEnv) : FamilyOutcome :=
  if sig400 e then
    match e.pomCoords with
    | some _ => if e.probeFinds then .warnedExists else .swallowed
    | none => .swallowed
  else .aborted

/-- What one family's processing produced. -/
structure FamilyResult where
  outcome : FamilyOutcome
  invocations : List (List JStr)
  warnings : List JStr
deriving DecidableEq, Repr

/-- One iteration of the descriptor loop: main-binary guard, sibling
classification, command assembly, invocation, failure handling. -/
def processFamily (mavenSettings remoteUrl : JStr) (e : FamilyEnv) : FamilyResult :=
  if !(mainExists e) then
    ⟨.skippedMissingMain, [], ["Main artifact not found: ".toList ++ mainArtifact e]⟩
  else
    let cmd := buildCmd mavenSettings remoteUrl e.pomFile (mainArtifact e)
      (processSiblings e.basename e.siblings)
    if e.execOk then
      ⟨.deployed, [cmd], []⟩
    else
      match handleFailure e with
      | .warnedExists =>
        ⟨.warnedExists, [cmd], ["Artifact already exists in the repository".toList]⟩
      | o => ⟨o, [cmd], []⟩

/-- The descriptor loop: families in order, stopping when one aborts.
Returns the results of the processed families and whether the run aborted. -/
def runFamilies (mavenSettings remoteUrl : JStr) :
    List FamilyEnv → List FamilyResult × Bool
  | [] => ([], false)
  | e :: es =>
    let r := processFamily mavenSettings remoteUrl e
    if r.outcome = .aborted then ([r], true)
    else
      let p := runFamilies mavenSettings remoteUrl es
      (r :: p.1, p.2)

/-- The cache key: a fixed prefix followed by the runner's OS identifier. -/
def primaryCacheKey (runnerOS : JStr) : JStr := "maven-publish-".toList ++ runnerOS

/-- The cached path set: the tool's local repository directory. -/
def cachedPaths (home : JStr) : List JStr := [home ++ "/.m2/repository".toList]

/-- The observable shape of one whole run: the restore call's key and paths,
the per-family results, the save call (if reached), and failure. -/
structure RunTrace where
  restoredKey : JStr
  restoredPaths : List JStr
  results : List FamilyResult
  saved : Option (List JStr × JStr)
  failed : Bool
deriving DecidableEq, Repr

/-- The whole run: restore the cache, process every family, and save the cache
back — unless an abort escaped the loop, in which case the save is never
reached and the run is marked failed. -/
def runMain (runnerOS home mavenSettings remoteUrl : JStr)
    (fams : List FamilyEnv) : RunTrace :=
  let key := primaryCacheKey runnerOS
  let paths := cachedPaths home
  let p := runFamilies mavenSettings remoteUrl fams
  if p.2 then ⟨key, paths, p.1, none, true⟩
  else ⟨key, paths, p.1, some (paths, key), false⟩

/-! ## Spec-side formulation of the probe path ("dots replaced by slashes") -/

/-- The dot-separated components of a group identifier. -/
def splitOnDot : JStr → List JStr
  | [] => [[]]
  | c :: cs =>
    if c = '.' then [] :: splitOnDot cs
    else
      match splitOnDot cs with
      | h :: t => (c :: h) :: t
      | [] => [[c]]

/-- Components joined with `/`. -/
def joinSlash : List JStr → JStr
  | [] => []
  | [x] => x
  | x :: xs => x ++ '/' :: joinSlash xs

/-! ## Helper lemmas -/

theorem processSiblings_eq_triples (b : JStr) (s : List JStr) :
    processSiblings b s =
      ⟨(extraTriples b s).map (·.1),
       (extraTriples b s).map (·.2.1),
       (extraTriples b s).map (·.2.2)⟩ := by
  induction s with
  | nil => rfl
  | cons f fs ih =>
    simp only [processSiblings, extraTriples, List.filterMap_cons, classifyExtraOpt]
    cases h : classify b f <;> simp [ih, extraTriples]

theorem mem_extraTriples (b : JStr) (s : List JStr) (x : JStr × JStr × JStr) :
    x ∈ extraTriples b s → x.1 ∈ s ∧ classify b x.1 = .extra x.2.1 x.2.2 := by
  intro hx
  simp only [extraTriples, List.mem_filterMap] at hx
  obtain ⟨f, hf, hc⟩ := hx
  unfold classifyExtraOpt at hc
  cases h : classify b f <;> simp [h] at hc
  case extra t c =>
    cases hc
    exact ⟨hf, h⟩

theorem mem_files_classified (b : JStr) (s : List JStr) (f : JStr) :
    f ∈ (processSiblings b s).files → ∃ t c, classify b f = .extra t c := by
  intro hf
  rw [processSiblings_eq_triples] at hf
  simp only [List.mem_map] at hf
  obtain ⟨x, hx, hx1⟩ := hf
  obtain ⟨-, hcl⟩ := mem_extraTriples b s x hx
  exact ⟨x.2.1, x.2.2, hx1 ▸ hcl⟩

theorem classify_not_extra_skip (b f : JStr) (s : List JStr)
    (h : ∀ t c, classify b f ≠ .extra t c) :
    processSiblings b s = processSiblings b (s.filter fun x => x != f) := by
  induction s with
  | nil => rfl
  | cons g gs ih =>
    by_cases hg : g = f
    · subst hg
      cases hc : classify b g with
      | extra t c => exact absurd hc (h t c)
      | _ => simp [processSiblings, hc, List.filter, ih]
    · have : (g != f) = true := by simp [hg]
      cases hc : classify b g <;>
        simp [processSiblings, hc, List.filter, this, ih]

theorem splitLastDot_append_dashjar (b : JStr) :
    splitLastDot (b ++ ['-', '.', 'j', 'a', 'r']) = some (b ++ ['-'], ['.', 'j', 'a', 'r']) := by
  induction b with
  | nil => rfl
  | cons c cs ih => simp [splitLastDot, ih]

theorem parseName_append_dashjar (b : JStr) :
    parseName (b ++ ['-', '.', 'j', 'a', 'r']) = (b ++ ['-'], ['.', 'j', 'a', 'r']) := by
  unfold parseName
  rw [splitLastDot_append_dashjar]
  cases hb : b ++ ['-'] with
  | nil => simp at hb
  | cons x xs => rfl

theorem splitOnDot_ne_nil (g : JStr) : splitOnDot g ≠ [] := by
  cases g with
  | nil => simp [splitOnDot]
  | cons c cs =>
    simp only [splitOnDot]
    split
    · simp
    · cases h : splitOnDot cs <;> simp

theorem replaceDots_eq_spec (g : JStr) :
    replaceDots g = joinSlash (splitOnDot g) := by
  induction g with
  | nil => rfl
  | cons c cs ih =>
    cases h : splitOnDot cs with
    | nil => exact absurd h (splitOnDot_ne_nil cs)
    | cons h1 t1 =>
      by_cases hc : c = '.'
      · subst hc
        have e1 : replaceDots ('.' :: cs) = '/' :: replaceDots cs := by
          simp [replaceDots]
        have e2 : splitOnDot ('.' :: cs) = [] :: splitOnDot cs := by
          simp [splitOnDot]
        rw [e1, e2, ih, h]
        rfl
      · have e1 : replaceDots (c :: cs) = c :: replaceDots cs := by
          simp [replaceDots, if_neg hc]
        have e2 : splitOnDot (c :: cs) = (c :: h1) :: t1 := by
          simp [splitOnDot, if_neg hc, h]
        rw [e1, e2, ih, h]
        cases t1 with
        | nil => rfl
        | cons u us => rfl

theorem classify_ignored (b f : JStr)
    (h : ¬ (b <+: (parseName f).1) ∨ (parseName f).2 ∈ ignoredExts
          ∨ (parseName f).2 = []) :
    classify b f = .ignored := by
  have hcond : (!(b.isPrefixOf (parseName f).1)
      || ignoredExts.contains (parseName f).2
      || (parseName f).2 == ([] : JStr)) = true := by
    simp only [Bool.or_eq_true, Bool.not_eq_eq_eq_not, Bool.not_true, beq_iff_eq]
    rcases h with h | h | h
    · cases hb : List.isPrefixOf b (parseName f).1
      · exact Or.inl (Or.inl rfl)
      · exact absurd (List.isPrefixOf_iff_prefix.mp hb) h
    · exact Or.inl (Or.inr (List.elem_iff.mpr h))
    · exact Or.inr h
  simp only [classify, hcond, if_true]

theorem classifyExtraOpt_isSome_iff (b f : JStr) :
    (∃ y, classifyExtraOpt b f = some y) ↔ ∃ t c, classify b f = .extra t c := by
  unfold classifyExtraOpt
  cases h : classify b f <;> simp

/-! ## Concrete sample runs -/

/-- A settings-file path used by the concrete sample runs. -/
def sampleSettings : JStr := "/tmp/maven-settings.xml".toList

/-- A remote repository URL used by the concrete sample runs. -/
def sampleUrl : JStr := "https://repo.example/releases".toList

/-- A family whose deploy invocation failed with the 400-rejection signature
in its captured output, whose descriptor yielded coordinates, and whose
idempotency probe did not confirm presence. -/
def env400 : FamilyEnv :=
  { pomFile := "/w/lib.pom".toList
    folder := "/w".toList
    basename := "lib".toList
    siblings := ["lib.pom".toList, "lib.jar".toList]
    execOk := false
    execStdout := "transfer failed, status: 400 Bad Request".toList
    execStderr := []
    pomCoords := some ⟨"com.example".toList, "lib".toList, "1.0".toList⟩
    probeFinds := false }

/-- Like `env400` but the probe confirms the artifact is already present. -/
def env400found : FamilyEnv := { env400 with probeFinds := true }

/-- A family whose folder has no `lib.jar` main binary. -/
def envNoMain : FamilyEnv :=
  { env400 with
    siblings := ["lib.pom".toList, "lib-sources.jar".toList]
    execOk := true }

/-! ## Per-family processing lemmas -/

theorem processFamily_outcome_failed (st u : JStr) (e : FamilyEnv)
    (hmain : mainExists e = true) (hexec : e.execOk = false) :
    (processFamily st u e).outcome = handleFailure e := by
  simp only [processFamily, hmain, Bool.not_true, hexec]
  cases h : handleFailure e <;> simp [h]

theorem runFamilies_cons_continue (st u : JStr) (e : FamilyEnv) (es : List FamilyEnv)
    (h : (processFamily st u e).outcome ≠ .aborted) :
    runFamilies st u (e :: es)
      = ((processFamily st u e) :: (runFamilies st u es).1, (runFamilies st u es).2) := by
  simp only [runFamilies]
  rw [if_neg h]

theorem runFamilies_cons_abort (st u : JStr) (e : FamilyEnv) (es : List FamilyEnv)
    (h : (processFamily st u e).outcome = .aborted) :
    runFamilies st u (e :: es) = ([processFamily st u e], true) := by
  simp only [runFamilies]
  rw [if_pos h]

/-! ## Claim theorems -/

/-- C2: for base name `foo` and binary type `jar`, `foo.jar` is skipped as the
main binary (and never enters the extra lists), `foo-sources.jar` is an extra
artifact with classifier `sources` and type `jar`, `foo.asc` is an extra
artifact with empty classifier and type `asc`, and `foobar.jar` is rejected
because the character after the base-name boundary is not the separator. -/
theorem sibling_classification_examples :
    classify "foo".toList "foo.jar".toList = .mainSkip
    ∧ classify "foo".toList "foo-sources.jar".toList
        = .extra "jar".toList "sources".toList
    ∧ classify "foo".toList "foo.asc".toList = .extra "asc".toList "".toList
    ∧ classify "foo".toList "foobar.jar".toList = .notFamily
    ∧ processSiblings "foo".toList
        ["foo.jar".toList, "foo-sources.jar".toList, "foo.asc".toList,
         "foobar.jar".toList]
      = ⟨["foo-sources.jar".toList, "foo.asc".toList],
         ["jar".toList, "asc".toList],
         ["sources".toList, "".toList]⟩ := by
  decide

/-- C3: a sibling whose stem does not start with the base name, or whose
extension is the descriptor or a checksum extension, or which has no
extension, is classified as ignored, never appears in the extra files list,
and contributes nothing to any of the three lists. -/
theorem ignored_siblings_never_listed (b f : JStr) (s : List JStr)
    (h : ¬ (b <+: (parseName f).1) ∨ (parseName f).2 ∈ ignoredExts
          ∨ (parseName f).2 = []) :
    classify b f = .ignored
    ∧ f ∉ (processSiblings b s).files
    ∧ processSiblings b s = processSiblings b (s.filter fun x => x != f) := by
  have hcl := classify_ignored b f h
  refine ⟨hcl, ?_, ?_⟩
  · intro hf
    obtain ⟨t, c, hc⟩ := mem_files_classified b s f hf
    rw [hcl] at hc
    cases hc
  · refine classify_not_extra_skip b f s ?_
    intro t c hc
    rw [hcl] at hc
    cases hc

/-- Witness for C3 at a concrete input: `foo.pom` has the descriptor
extension and so never enters the extras of its family. -/
theorem ignored_siblings_never_listed_witness :
    classify "foo".toList "foo.pom".toList = .ignored
    ∧ "foo.pom".toList ∉
        (processSiblings "foo".toList ["foo.jar".toList, "foo.pom".toList]).files :=
  ⟨(ignored_siblings_never_listed "foo".toList "foo.pom".toList
      ["foo.jar".toList, "foo.pom".toList] (Or.inr (Or.inl (by decide)))).1,
   (ignored_siblings_never_listed "foo".toList "foo.pom".toList
      ["foo.jar".toList, "foo.pom".toList] (Or.inr (Or.inl (by decide)))).2.1⟩

/-- C4: the three extra-artifact lists always have equal length, and there is
one list of per-sibling triples from which all three project, so the i-th
file, type and classifier always come from the same sibling's
classification. -/
theorem extra_lists_aligned (b : JStr) (s : List JStr) :
    ((processSiblings b s).files.length = (processSiblings b s).types.length
      ∧ (processSiblings b s).types.length
          = (processSiblings b s).classifiers.length)
    ∧ ∃ tr : List (JStr × JStr × JStr),
        (processSiblings b s).files = tr.map (·.1)
        ∧ (processSiblings b s).types = tr.map (·.2.1)
        ∧ (processSiblings b s).classifiers = tr.map (·.2.2)
        ∧ ∀ x ∈ tr, x.1 ∈ s ∧ classify b x.1 = .extra x.2.1 x.2.2 := by
  rw [processSiblings_eq_triples]
  exact ⟨⟨by simp, by simp⟩, extraTriples b s, rfl, rfl, rfl,
    fun x hx => mem_extraTriples b s x hx⟩

/-- C10: a sibling named `baseName + "-.jar"` parses to an empty classifier
after the separator is stripped, so the main-binary skip rule excludes it
from the extra lists even though it is not the main binary file. -/
theorem dash_empty_classifier_mainskip (b : JStr) (s : List JStr) :
    classify b (b ++ "-.jar".toList) = .mainSkip
    ∧ b ++ "-.jar".toList ≠ b ++ ".jar".toList
    ∧ (b ++ "-.jar".toList) ∉ (processSiblings b s).files := by
  have hparse : parseName (b ++ "-.jar".toList) = (b ++ ['-'], ['.', 'j', 'a', 'r']) :=
    parseName_append_dashjar b
  have hcl : classify b (b ++ "-.jar".toList) = .mainSkip := by
    simp only [classify, hparse]
    have h1 : List.isPrefixOf b (b ++ ['-']) = true :=
      List.isPrefixOf_iff_prefix.mpr (List.prefix_append b ['-'])
    have h2 : (b ++ ['-']).drop b.length = ['-'] := List.drop_left b ['-']
    simp [h1, h2]
    decide
  refine ⟨hcl, ?_, ?_⟩
  · intro hfe
    have := List.append_cancel_left hfe
    simp at this
  · intro hf
    obtain ⟨t, c, hc⟩ := mem_files_classified b s _ hf
    rw [hcl] at hc
    cases hc

/-- C1 counterexample: a deploy failure whose captured output matches the
400-rejection signature but whose probe does not confirm presence is
swallowed — the outcome is not an abort and the run goes on — contradicting
the claim that the original failure terminates the run. -/
theorem swallow400_counterexample :
    sig400 env400 = true
    ∧ env400.probeFinds = false
    ∧ mainExists env400 = true
    ∧ env400.execOk = false
    ∧ (processFamily sampleSettings sampleUrl env400).outcome = .swallowed
    ∧ (processFamily sampleSettings sampleUrl env400).outcome ≠ .aborted
    ∧ (runFamilies sampleSettings sampleUrl [env400]).2 = false
    ∧ (runFamilies sampleSettings sampleUrl [env400]).1.length = 1 := by
  decide

/-- C1 (amended): when a deploy invocation fails and the captured output
contains the 400-rejection signature, the probe is attempted; a confirmed
presence downgrades the failure to a warning and the run continues; an
unconfirmed presence (or missing coordinates) is also swallowed and the run
continues with the next family rather than terminating; and without the
signature the failure aborts the run. -/
theorem deploy_failure_handling_amended (st u : JStr) (e : FamilyEnv)
    (es : List FamilyEnv)
    (hmain : mainExists e = true) (hexec : e.execOk = false) :
    (sig400 e = true → e.pomCoords.isSome = true → e.probeFinds = true →
      (processFamily st u e).outcome = .warnedExists)
    ∧ (sig400 e = true → (e.pomCoords = none ∨ e.probeFinds = false) →
      (processFamily st u e).outcome = .swallowed)
    ∧ (sig400 e = false → (processFamily st u e).outcome = .aborted)
    ∧ ((processFamily st u e).outcome ≠ .aborted →
      runFamilies st u (e :: es)
        = ((processFamily st u e) :: (runFamilies st u es).1,
           (runFamilies st u es).2))
    ∧ ((processFamily st u e).outcome = .aborted →
      runFamilies st u (e :: es) = ([processFamily st u e], true)) := by
  have hout := processFamily_outcome_failed st u e hmain hexec
  refine ⟨?_, ?_, ?_, runFamilies_cons_continue st u e es,
    runFamilies_cons_abort st u e es⟩
  · intro hs hsome hpf
    obtain ⟨c, hc⟩ := Option.isSome_iff_exists.mp hsome
    rw [hout]
    simp [handleFailure, hs, hc, hpf]
  · intro hs hor
    rw [hout]
    rcases hor with hn | hpf
    · simp [handleFailure, hs, hn]
    · cases hc : e.pomCoords with
      | none => simp [handleFailure, hs, hc]
      | some c => simp [handleFailure, hs, hc, hpf]
  · intro hs
    rw [hout]
    simp [handleFailure, hs]

/-- Witness for C1's amended statement: both swallowing branches at concrete
environments — probe confirming gives a warned continuation, probe failing
gives a silent continuation. -/
theorem deploy_failure_handling_amended_witness :
    (processFamily sampleSettings sampleUrl env400found).outcome = .warnedExists
    ∧ (processFamily sampleSettings sampleUrl env400).outcome = .swallowed :=
  ⟨(deploy_failure_handling_amended sampleSettings sampleUrl env400found []
      (by decide) (by decide)).1 (by decide) (by decide) (by decide),
   (deploy_failure_handling_amended sampleSettings sampleUrl env400 []
      (by decide) (by decide)).2.1 (by decide) (Or.inr (by decide))⟩

/-- C5: when the family folder has no `baseName + ".jar"`, no deploy
invocation is produced, the missing-main warning is recorded, and the run
continues with the remaining families without aborting. -/
theorem missing_main_skips_family (st u : JStr) (e : FamilyEnv)
    (es : List FamilyEnv)
    (h : e.siblings.contains (e.basename ++ ".jar".toList) = false) :
    (processFamily st u e).invocations = []
    ∧ (processFamily st u e).warnings
        = ["Main artifact not found: ".toList ++ mainArtifact e]
    ∧ (processFamily st u e).outcome = .skippedMissingMain
    ∧ runFamilies st u (e :: es)
        = ((processFamily st u e) :: (runFamilies st u es).1,
           (runFamilies st u es).2) := by
  have hm : mainExists e = false := h
  refine ⟨?_, ?_, ?_, ?_⟩
  · simp [processFamily, hm]
  · simp [processFamily, hm]
  · simp [processFamily, hm]
  · refine runFamilies_cons_continue st u e es ?_
    simp [processFamily, hm]

/-- Witness for C5 at a concrete input: a folder with only the descriptor
and a sources jar produces no invocation and does not abort. -/
theorem missing_main_skips_family_witness :
    (processFamily sampleSettings sampleUrl envNoMain).invocations = []
    ∧ (processFamily sampleSettings sampleUrl envNoMain).outcome
        = .skippedMissingMain
    ∧ (runFamilies sampleSettings sampleUrl [envNoMain]).2 = false := by
  have h := missing_main_skips_family sampleSettings sampleUrl envNoMain []
    (by decide)
  refine ⟨h.1, h.2.2.1, ?_⟩
  rw [h.2.2.2]
  rfl

/-- C6 counterexample: a 204 response is a 200-class response, yet the probe
reports the artifact as absent, contradicting the claim that every 200-class
response yields `true`. -/
theorem probe_200_class_counterexample :
    200 ≤ 204 ∧ 204 < 300
    ∧ (artifactExists (.resolved 204)).found = false
    ∧ (artifactExists (.resolved 204)).warned = false := by
  decide

/-- C6 (amended): the probe returns `true` exactly for a 200 response and
`false` without warning for any other resolved status; a 404 rejection gives
`false` without warning; any other rejection (including connection errors)
gives `false` with a warning; every outcome returns a value, none re-raises. -/
theorem probe_result_amended (s : Nat) (m : JStr) :
    artifactExists (.resolved s) = ⟨s == 200, false⟩
    ∧ artifactExists (.rejectedWithStatus s) = ⟨false, !(s == 404)⟩
    ∧ artifactExists (.rejectedNoResponse m) = ⟨false, true⟩ := by
  refine ⟨?_, ?_, rfl⟩
  · cases h : s == 200 <;> simp [artifactExists, h]
  · cases h : s == 404 <;> simp [artifactExists, h]

/-- C7: the probe issues exactly one GET, to the repository URL followed by
the group identifier with every dot replaced by a slash (equivalently its
dot-separated components joined with slashes) and the standard
`artifactId/version/artifactId-version.jar` layout, carrying the
basic-authentication header over the UTF-8 of `username:password`. -/
theorem probe_request_shape (g a v r u p : JStr) :
    (probeRequests g a v r u p).length = 1
    ∧ probeRequests g a v r u p
      = [⟨r ++ "/".toList ++ joinSlash (splitOnDot g) ++ "/".toList ++ a
            ++ "/".toList ++ v ++ "/".toList ++ a ++ "-".toList ++ v
            ++ ".jar".toList,
          "Basic ".toList
            ++ base64Encode (utf8Encode (u ++ ":".toList ++ p))⟩] := by
  refine ⟨rfl, ?_⟩
  simp [probeRequests, checkUrl, artifactPath, basicAuthHeader,
    replaceDots_eq_spec, List.append_assoc]

/-- C8: whenever the descriptor loop finishes without a fatal abort — the
per-family invocations may have succeeded or failed — the cache save call is
reached unconditionally with the very key and path set used by the restore. -/
theorem cache_saved_on_completion (os home st u : JStr) (fams : List FamilyEnv)
    (h : (runFamilies st u fams).2 = false) :
    (runMain os home st u fams).saved
      = some ((runMain os home st u fams).restoredPaths,
              (runMain os home st u fams).restoredKey)
    ∧ (runMain os home st u fams).restoredKey = primaryCacheKey os
    ∧ (runMain os home st u fams).restoredPaths = cachedPaths home
    ∧ (runMain os home st u fams).failed = false := by
  refine ⟨?_, ?_, ?_, ?_⟩ <;> simp [runMain, h]

/-- Witness for C8 at a concrete run containing a failed (400-swallowed)
deploy invocation: the save still happens, under the restore key. -/
theorem cache_saved_on_completion_witness :
    (processFamily sampleSettings sampleUrl env400).outcome = .swallowed
    ∧ (runFamilies sampleSettings sampleUrl [env400]).2 = false
    ∧ (runMain "Linux".toList "/root".toList sampleSettings sampleUrl
        [env400]).saved
      = some (cachedPaths "/root".toList, primaryCacheKey "Linux".toList) := by
  have h := cache_saved_on_completion "Linux".toList "/root".toList
    sampleSettings sampleUrl [env400] (by decide)
  refine ⟨by decide, by decide, ?_⟩
  rw [h.1, h.2.1, h.2.2.1]

/-- C9: every assembled invocation contains the batch flag, the settings-file
path, the deploy-goal target, the four-algorithm checksum override, the retry
count, the remote URL, the descriptor path and the main binary path; and it
is the base argument list extended with the three comma-joined lists exactly
when at least one sibling was classified as an extra artifact, in list
order. -/
theorem deploy_cmd_contents (st u p m b : JStr) (sibs : List JStr) :
    ("--batch-mode".toList ∈ buildCmd st u p m (processSiblings b sibs)
      ∧ "--settings".toList ∈ buildCmd st u p m (processSiblings b sibs)
      ∧ st ∈ buildCmd st u p m (processSiblings b sibs)
      ∧ "org.apache.maven.plugins:maven-deploy-plugin:deploy-file".toList
          ∈ buildCmd st u p m (processSiblings b sibs)
      ∧ "-Daether.checksums.algorithms=MD5,SHA-1,SHA-256,SHA-512".toList
          ∈ buildCmd st u p m (processSiblings b sibs)
      ∧ "-DretryFailedDeploymentCount=3".toList
          ∈ buildCmd st u p m (processSiblings b sibs)
      ∧ ("-Durl=".toList ++ u) ∈ buildCmd st u p m (processSiblings b sibs)
      ∧ ("-DpomFile=".toList ++ p) ∈ buildCmd st u p m (processSiblings b sibs)
      ∧ ("-Dfile=".toList ++ m) ∈ buildCmd st u p m (processSiblings b sibs))
    ∧ buildCmd st u p m (processSiblings b sibs)
      = baseCmd st u p m ++
        (if 0 < (processSiblings b sibs).files.length then
          ["-Dfiles=".toList ++ joinComma (processSiblings b sibs).files,
           "-Dtypes=".toList ++ joinComma (processSiblings b sibs).types,
           "-Dclassifiers=".toList
             ++ joinComma (processSiblings b sibs).classifiers]
         else [])
    ∧ (0 < (processSiblings b sibs).files.length
        ↔ ∃ f ∈ sibs, ∃ t c, classify b f = .extra t c) := by
  refine ⟨?_, ?_, ?_⟩
  · by_cases h : 0 < (processSiblings b sibs).files.length <;>
      simp [buildCmd, baseCmd, h]
  · by_cases h : 0 < (processSiblings b sibs).files.length <;>
      simp [buildCmd, h]
  · rw [processSiblings_eq_triples]
    simp only [List.length_map, List.length_pos, Ne, extraTriples,
      List.filterMap_eq_nil_iff, classifyExtraOpt]
    constructor
    · intro h
      push_neg at h
      obtain ⟨f, hf, hne⟩ := h
      refine ⟨f, hf, ?_⟩
      cases hc : classify b f <;> simp [hc] at hne ⊢
    · intro ⟨f, hf, t, c, hc⟩ hall
      have := hall f hf
      rw [hc] at this
      cases this

end MavenPublish
